import Mathlib

/-!
Verification of the GPS track processing pipeline of the onda-sonora
repository against its natural-language specification.  The TypeScript
sources are shallowly embedded: machine numbers become rationals, the
remote map-matching HTTP round trip becomes a function parameter, and
stateful hooks become explicit state-passing step functions.
-/

set_option maxRecDepth 100000

namespace OndaSonora

/-! ## Map matching service (src/utils/mapMatchingService.ts) -/

/-- MatchedRoute record of the map matching service.  The coordinate type is
kept abstract since the batching code never inspects coordinate contents. -/
structure MatchedRoute (α : Type) where
  coordinates : List α
  distance : ℚ
  duration : ℚ
  confidence : ℚ
deriving Repr, DecidableEq

/-- Embedding of matchRouteToRoadsSingleBatch.  The remote HTTP round trip
(fetch, response.ok, the data.matchings checks and the catch handler) is
abstracted into the parameter svc, which returns none exactly when the source
would return null for a service-side reason.  The two local guards of the
source are kept verbatim: fewer than 2 coordinates, and more than 100
coordinates (the Mapbox hard limit at lines 41 to 45). -/
def matchRouteToRoadsSingleBatch {α : Type} (svc : List α → Option (MatchedRoute α))
    (coordinates : List α) : Option (MatchedRoute α) :=
  if coordinates.length < 2 then none
  else if coordinates.length > 100 then none
  else svc coordinates

/-- Constant BATCH_SIZE = 90 of matchRouteToRoadsBatched. -/
def BATCH_SIZE : ℕ := 90

/-- Constant OVERLAP = 10 of matchRouteToRoadsBatched. -/
def OVERLAP : ℕ := 10

/-- Mutable accumulator of the batching loop of matchRouteToRoadsBatched:
allMatchedCoords, totalDistance, totalDuration, batchCount, failedBatches. -/
structure BatchAcc (α : Type) where
  allMatchedCoords : List α
  totalDistance : ℚ
  totalDuration : ℚ
  batchCount : ℕ
  failedBatches : ℕ
deriving Repr, DecidableEq

/-- Window slice taken by the loop iteration at index i:
start = max 0 (i - OVERLAP) and stop = min length (i + BATCH_SIZE + OVERLAP),
then coordinates.slice(start, stop).  Natural subtraction gives the max with
zero of the source. -/
def batchSlice {α : Type} (coordinates : List α) (i : ℕ) : List α :=
  let start := i - OVERLAP
  let stop := min coordinates.length (i + BATCH_SIZE + OVERLAP)
  (coordinates.drop start).take (stop - start)

/-- Body of one iteration of the batching loop of matchRouteToRoadsBatched
(lines 147 to 198): on a successful nonempty match the matched coordinates
are appended (dropping the leading OVERLAP except for the first window) and
distance and duration are summed; otherwise the original window coordinates
are appended the same way and failedBatches is incremented. -/
def batchStep {α : Type} (svc : List α → Option (MatchedRoute α))
    (coordinates : List α) (acc : BatchAcc α) (i : ℕ) : BatchAcc α :=
  let batch := batchSlice coordinates i
  match matchRouteToRoadsSingleBatch svc batch with
  | some m =>
      if m.coordinates.length > 0 then
        let coordsToAdd := if i = 0 then m.coordinates else m.coordinates.drop OVERLAP
        ⟨acc.allMatchedCoords ++ coordsToAdd, acc.totalDistance + m.distance,
          acc.totalDuration + m.duration, acc.batchCount + 1, acc.failedBatches⟩
      else
        let coordsToAdd := if i = 0 then batch else batch.drop OVERLAP
        ⟨acc.allMatchedCoords ++ coordsToAdd, acc.totalDistance, acc.totalDuration,
          acc.batchCount + 1, acc.failedBatches + 1⟩
  | none =>
      let coordsToAdd := if i = 0 then batch else batch.drop OVERLAP
      ⟨acc.allMatchedCoords ++ coordsToAdd, acc.totalDistance, acc.totalDuration,
        acc.batchCount + 1, acc.failedBatches + 1⟩

/-- Start indices visited by the loop head for (i = 0; i < n; i += BATCH_SIZE),
namely 0, 90, 180, ... below n; their number is the ceiling of n / 90. -/
def batchIndices (n : ℕ) : List ℕ :=
  (List.range ((n + (BATCH_SIZE - 1)) / BATCH_SIZE)).map (fun k => k * BATCH_SIZE)

/-- Embedding of matchRouteToRoadsBatched (lines 120 to 211).  Small inputs of
at most 100 coordinates go through a single direct batch; larger inputs run
the batching loop and report confidence 1 when no window failed, otherwise
1 - failedBatches / batchCount.  The rate-limit delay and the log output of
the source have no observable effect on the returned value and are dropped. -/
def matchRouteToRoadsBatched {α : Type} (svc : List α → Option (MatchedRoute α))
    (coordinates : List α) : Option (MatchedRoute α) :=
  if coordinates.length < 2 then none
  else if coordinates.length ≤ 100 then
    matchRouteToRoadsSingleBatch svc coordinates
  else
    let final := (batchIndices coordinates.length).foldl (batchStep svc coordinates)
      ⟨[], 0, 0, 0, 0⟩
    some ⟨final.allMatchedCoords, final.totalDistance, final.totalDuration,
      if final.failedBatches = 0 then 1
      else 1 - (final.failedBatches : ℚ) / (final.batchCount : ℚ)⟩

/-- Identity matching service over natural-number coordinates: it succeeds on
every window it is actually asked and returns the window itself. -/
def idService : List ℕ → Option (MatchedRoute ℕ) :=
  fun batch => some ⟨batch, 1, 1, 1⟩

/-- Concrete 1800 point trajectory used as the failing input. -/
def traj1800 : List ℕ := List.range 1800

/-- Final loop accumulator for the 1800 point trajectory under the identity
service. -/
def acc1800 : BatchAcc ℕ :=
  (batchIndices 1800).foldl (batchStep idService traj1800) ⟨[], 0, 0, 0, 0⟩

/-- Length of the window slice at loop index i, in terms of the input length
only. -/
theorem batchSlice_length {α : Type} (c : List α) (i : ℕ) :
    (batchSlice c i).length
      = min c.length (i + BATCH_SIZE + OVERLAP) - (i - OVERLAP) := by
  simp only [batchSlice, List.length_take, List.length_drop]
  omega

/-- Length-level model of one loop iteration under the identity service:
batch count, failed count and merged output length depend on the window
length alone. -/
def lenStep (n : ℕ) (t : ℕ × ℕ × ℕ) (i : ℕ) : ℕ × ℕ × ℕ :=
  let L := min n (i + BATCH_SIZE + OVERLAP) - (i - OVERLAP)
  (t.1 + 1,
   t.2.1 + (if L < 2 ∨ 100 < L then 1 else 0),
   t.2.2 + (if i = 0 then L else L - OVERLAP))

/-- One iteration of the real loop under the identity service is tracked by
the length-level model. -/
theorem batchStep_idService_counts (c : List ℕ) (acc : BatchAcc ℕ) (i : ℕ) :
    (batchStep idService c acc i).batchCount = acc.batchCount + 1 ∧
    (batchStep idService c acc i).failedBatches
      = acc.failedBatches
        + (if (batchSlice c i).length < 2 ∨ 100 < (batchSlice c i).length then 1 else 0) ∧
    (batchStep idService c acc i).allMatchedCoords.length
      = acc.allMatchedCoords.length
        + (if i = 0 then (batchSlice c i).length else (batchSlice c i).length - OVERLAP) := by
  simp only [batchStep, matchRouteToRoadsSingleBatch, idService]
  generalize batchSlice c i = b
  by_cases h1 : b.length < 2
  · by_cases h0 : i = 0 <;>
      simp [h0, h1, List.length_append, List.length_drop]
  · by_cases h2 : 100 < b.length
    · by_cases h0 : i = 0 <;>
        simp [h0, h1, h2, List.length_append, List.length_drop]
    · have hpos : 0 < b.length := by omega
      by_cases h0 : i = 0 <;>
        simp [h0, h1, h2, hpos, List.length_append, List.length_drop]

/-- Folding the real loop under the identity service is tracked by folding the
length-level model. -/
theorem foldl_batchStep_idService (c : List ℕ) (idxs : List ℕ) (acc : BatchAcc ℕ) :
    ((idxs.foldl (batchStep idService c) acc).batchCount,
     (idxs.foldl (batchStep idService c) acc).failedBatches,
     (idxs.foldl (batchStep idService c) acc).allMatchedCoords.length)
      = idxs.foldl (lenStep c.length)
          (acc.batchCount, acc.failedBatches, acc.allMatchedCoords.length) := by
  induction idxs generalizing acc with
  | nil => rfl
  | cons i rest ih =>
      obtain ⟨hb, hf, hl⟩ := batchStep_idService_counts c acc i
      simp only [List.foldl_cons]
      rw [ih]
      simp only [lenStep, ← batchSlice_length]
      rw [hb, hf, hl]

/-- Numeric evaluation of the length-level model on the 1800 point input. -/
theorem lenFold_1800 :
    (batchIndices 1800).foldl (lenStep 1800) (0, 0, 0) = (20, 18, 1990) := by
  decide

/-- Length of the concrete trajectory. -/
theorem traj1800_length : traj1800.length = 1800 := by
  simp [traj1800]

/-- C1: evaluation of the batched matcher at the failing input.  On a 1800
coordinate trajectory with a remote service that succeeds on every window it
is asked, the loop runs 20 iterations but 18 of the 20 windows are rejected
locally by the 100 coordinate guard of the single-batch matcher (interior
windows carry 90 + 10 + 10 = 110 coordinates), so the returned confidence is
1 - 18/20 = 1/10 instead of the claimed 1.0, and the merged output holds 1990
coordinates instead of 1800 because the fallback windows duplicate their 10
seam coordinates. -/
theorem C1_batched_1800_eval :
    (matchRouteToRoadsBatched idService traj1800).map (fun r => r.confidence)
        = some (1/10) ∧
    acc1800.batchCount = 20 ∧
    acc1800.failedBatches = 18 ∧
    acc1800.allMatchedCoords.length = 1990 := by
  have hcorr2 : (acc1800.batchCount, acc1800.failedBatches,
      acc1800.allMatchedCoords.length) = (20, 18, 1990) := by
    unfold acc1800
    rw [foldl_batchStep_idService, traj1800_length]
    exact lenFold_1800
  simp only [Prod.mk.injEq] at hcorr2
  obtain ⟨hbc, hfb, hlen⟩ := hcorr2
  refine ⟨?_, hbc, hfb, hlen⟩
  have hmain : matchRouteToRoadsBatched idService traj1800
      = some ⟨acc1800.allMatchedCoords, acc1800.totalDistance, acc1800.totalDuration,
          if acc1800.failedBatches = 0 then 1
          else 1 - (acc1800.failedBatches : ℚ) / (acc1800.batchCount : ℚ)⟩ := by
    unfold matchRouteToRoadsBatched acc1800
    rw [traj1800_length]
    norm_num
  rw [hmain, hfb, hbc]
  norm_num

/-- C2: evaluation of the window extraction at the failing input.  The window
taken at loop index 90 of an 1800 coordinate trajectory has 110 coordinates,
exceeding the 100 coordinate ceiling, so the single-batch matcher rejects it
before any remote call for every possible service. -/
theorem C2_window_guard_eval :
    (batchSlice traj1800 90).length = 110 ∧
    ∀ svc : List ℕ → Option (MatchedRoute ℕ),
      matchRouteToRoadsSingleBatch svc (batchSlice traj1800 90) = none := by
  have h : (batchSlice traj1800 90).length = 110 := by
    rw [batchSlice_length, traj1800_length]
    decide
  refine ⟨h, fun svc => ?_⟩
  unfold matchRouteToRoadsSingleBatch
  rw [h]
  norm_num

/-! ## Activity recognition (src/hooks/useActivityRecognition.ts) -/

/-- Activity states of the classifier. -/
inductive ActivityState where
  | stationary
  | walking
  | running
deriving Repr, DecidableEq

/-- Speed threshold option record of useActivityRecognition. -/
structure SpeedThreshold where
  stationary : ℚ
  walking : ℚ
  running : ℚ
deriving Repr, DecidableEq

/-- Default thresholds of the hook: stationary 0.5, walking 2.0, running 2.0
(lines 24 to 29). -/
def defaultSpeedThreshold : SpeedThreshold := ⟨1/2, 2, 2⟩

/-- Default debounce window of 3000 ms (line 30). -/
def defaultMinDuration : ℚ := 3000

/-- Candidate activity computed from one instantaneous speed (lines 42 to 51):
running when speed is at least the running threshold, else walking when speed
is at least the walking threshold, else stationary. -/
def classifyActivity (th : SpeedThreshold) (speed : ℚ) : ActivityState :=
  if speed ≥ th.running then ActivityState.running
  else if speed ≥ th.walking then ActivityState.walking
  else ActivityState.stationary

/-- State held by the hook across effect invocations: the confirmed activity
state, the auto-pause flag, the candidate entry time and the last candidate. -/
structure ActivityRecState where
  activityState : ActivityState
  isPaused : Bool
  stateStartTime : ℚ
  lastState : ActivityState
deriving Repr, DecidableEq

/-- Initial hook state: confirmed stationary, not paused, timer at the mount
time, last candidate stationary (lines 33 to 37). -/
def initialActivityRecState (mountTime : ℚ) : ActivityRecState :=
  ⟨ActivityState.stationary, false, mountTime, ActivityState.stationary⟩

/-- One effect invocation of useActivityRecognition (lines 39 to 74) at clock
time now.  A null speed leaves the state unchanged; a candidate differing
from the last candidate restarts the timer; otherwise the candidate is
confirmed once it has persisted for at least minDuration, which also sets the
auto-pause flag exactly when the candidate is stationary. -/
def activityStep (th : SpeedThreshold) (minDuration : ℚ) (s : ActivityRecState)
    (speed : Option ℚ) (now : ℚ) : ActivityRecState :=
  match speed with
  | none => s
  | some sp =>
      let currentActivity := classifyActivity th sp
      if currentActivity ≠ s.lastState then
        ⟨s.activityState, s.isPaused, now, currentActivity⟩
      else if now - s.stateStartTime ≥ minDuration then
        ⟨currentActivity,
          if currentActivity = ActivityState.stationary then true else false,
          s.stateStartTime, s.lastState⟩
      else s

/-- Fold of the effect over a list of non-null speed samples paired with their
clock times. -/
def activityRunQ (th : SpeedThreshold) (minDuration : ℚ) (s0 : ActivityRecState)
    (xs : List (ℚ × ℚ)) : ActivityRecState :=
  xs.foldl (fun s p => activityStep th minDuration s (some p.1) p.2) s0

/-- C3: the claim fails on the code.  With the default thresholds the walking
branch compares against the walking threshold 2.0 (not 0.5), so a speed of
1.0 m/s, which the claim places in walking, is classified stationary; indeed
the candidate walking is unreachable: every speed is classified stationary or
running, and the 0.5 threshold is never consulted. -/
theorem C3_walking_unreachable :
    classifyActivity defaultSpeedThreshold 1 = ActivityState.stationary ∧
    ∀ sp : ℚ, classifyActivity defaultSpeedThreshold sp = ActivityState.stationary ∨
      classifyActivity defaultSpeedThreshold sp = ActivityState.running := by
  constructor
  · unfold classifyActivity defaultSpeedThreshold
    norm_num
  · intro sp
    by_cases h : (2 : ℚ) ≤ sp
    · right
      unfold classifyActivity defaultSpeedThreshold
      simp [h]
    · left
      unfold classifyActivity defaultSpeedThreshold
      simp [h]

/-- Helper: the confirmed activity state survives one effect invocation that
either sees a changed candidate or fires inside the debounce window. -/
theorem activityStep_preserves (th : SpeedThreshold) (minDuration : ℚ)
    (s : ActivityRecState) (sp now : ℚ)
    (h : classifyActivity th sp ≠ s.lastState ∨ now - s.stateStartTime < minDuration) :
    (activityStep th minDuration s (some sp) now).activityState = s.activityState := by
  unfold activityStep
  rcases h with h | h
  · simp [h]
  · by_cases hc : classifyActivity th sp ≠ s.lastState
    · simp [hc]
    · simp [hc, not_le.mpr h]

/-- Helper: once the last candidate is running and every arriving speed is at
least the running threshold, the timer origin is never moved, and the final
confirmed state is running as soon as the last sample lies at least
minDuration past the timer origin. -/
theorem activityRunQ_sustained_running (th : SpeedThreshold) (minDuration : ℚ) :
    ∀ (xs : List (ℚ × ℚ)) (s : ActivityRecState),
      xs ≠ [] →
      s.lastState = ActivityState.running →
      (∀ p ∈ xs, th.running ≤ p.1) →
      minDuration ≤ (xs.getLastD (0, 0)).2 - s.stateStartTime →
      (activityRunQ th minDuration s xs).activityState = ActivityState.running := by
  intro xs
  induction xs with
  | nil => intro s hne; exact absurd rfl hne
  | cons x rest ih =>
      intro s _ hlast hmem hdur
      have hx : th.running ≤ x.1 := hmem x (List.mem_cons_self x rest)
      have hclass : classifyActivity th x.1 = ActivityState.running := by
        unfold classifyActivity
        rw [if_pos hx]
      cases rest with
      | nil =>
          have hd : minDuration ≤ x.2 - s.stateStartTime := by
            simpa using hdur
          simp only [activityRunQ, List.foldl_cons, List.foldl_nil, activityStep,
            hclass, hlast]
          simp [hd]
      | cons y rest2 =>
          have hdur2 : minDuration ≤ ((y :: rest2).getLastD (0, 0)).2 - s.stateStartTime := by
            simpa using hdur
          have hmem2 : ∀ p ∈ y :: rest2, th.running ≤ p.1 := by
            intro p hp
            exact hmem p (List.mem_cons_of_mem x hp)
          have hstep : (activityStep th minDuration s (some x.1) x.2).lastState
                = ActivityState.running ∧
              (activityStep th minDuration s (some x.1) x.2).stateStartTime
                = s.stateStartTime := by
            simp only [activityStep, hclass, hlast]
            by_cases hd : x.2 - s.stateStartTime ≥ minDuration <;> simp [hd, hlast]
          have := ih (activityStep th minDuration s (some x.1) x.2)
            (by simp) (hstep.1) hmem2 (by rw [hstep.2]; exact hdur2)
          simpa [activityRunQ, List.foldl_cons] using this

/-- C6: debounce behaviour of the activity classifier.  First, a trace in
which every sample that continues the current candidate dwell arrives less
than minDuration after the dwell timer origin never changes the confirmed
activity state.  Second, a trace whose samples all carry speeds at or above
the running threshold, whose timer origin starts no later than its first
sample, and whose further samples extend at least minDuration past the first
sample, always ends with the confirmed state running. -/
theorem C6_debounce :
    (∀ (th : SpeedThreshold) (minDuration : ℚ) (s0 : ActivityRecState)
        (xs : List (ℚ × ℚ)),
      (∀ k, k < xs.length →
        classifyActivity th (xs.getD k (0, 0)).1
            = (activityRunQ th minDuration s0 (xs.take k)).lastState →
        (xs.getD k (0, 0)).2
            - (activityRunQ th minDuration s0 (xs.take k)).stateStartTime < minDuration) →
      (activityRunQ th minDuration s0 xs).activityState = s0.activityState) ∧
    (∀ (th : SpeedThreshold) (minDuration : ℚ) (s0 : ActivityRecState)
        (x : ℚ × ℚ) (xs : List (ℚ × ℚ)),
      xs ≠ [] →
      (∀ p ∈ x :: xs, th.running ≤ p.1) →
      s0.stateStartTime ≤ x.2 →
      minDuration ≤ (xs.getLastD (0, 0)).2 - x.2 →
      (activityRunQ th minDuration s0 (x :: xs)).activityState = ActivityState.running) := by
  constructor
  · intro th minDuration s0 xs
    induction xs generalizing s0 with
    | nil => intro _; rfl
    | cons x rest ih =>
        intro hyp
        have h0 := hyp 0 (by simp)
        simp only [List.take_zero, activityRunQ, List.foldl_nil, List.getD_cons_zero] at h0
        have hpres : (activityStep th minDuration s0 (some x.1) x.2).activityState
            = s0.activityState := by
          apply activityStep_preserves
          by_cases hc : classifyActivity th x.1 = s0.lastState
          · exact Or.inr (h0 hc)
          · exact Or.inl hc
        have hshift : ∀ k, k < rest.length →
            classifyActivity th (rest.getD k (0, 0)).1
                = (activityRunQ th minDuration
                    (activityStep th minDuration s0 (some x.1) x.2)
                    (rest.take k)).lastState →
            (rest.getD k (0, 0)).2
                - (activityRunQ th minDuration
                    (activityStep th minDuration s0 (some x.1) x.2)
                    (rest.take k)).stateStartTime < minDuration := by
          intro k hk
          have h := hyp (k + 1) (by simpa using Nat.succ_lt_succ hk)
          simpa [activityRunQ, List.foldl_cons, List.take_succ_cons,
            List.getD_cons_succ] using h
        have hrest := ih (activityStep th minDuration s0 (some x.1) x.2) hshift
        calc (activityRunQ th minDuration s0 (x :: rest)).activityState
            = (activityRunQ th minDuration
                (activityStep th minDuration s0 (some x.1) x.2) rest).activityState := by
              simp [activityRunQ, List.foldl_cons]
          _ = (activityStep th minDuration s0 (some x.1) x.2).activityState := hrest
          _ = s0.activityState := hpres
  · intro th minDuration s0 x xs hne hmem hstart hdur
    have hx : th.running ≤ x.1 := hmem x (List.mem_cons_self x xs)
    have hclass : classifyActivity th x.1 = ActivityState.running := by
      unfold classifyActivity
      rw [if_pos hx]
    have hmem2 : ∀ p ∈ xs, th.running ≤ p.1 := by
      intro p hp
      exact hmem p (List.mem_cons_of_mem x hp)
    have hstep : (activityStep th minDuration s0 (some x.1) x.2).lastState
          = ActivityState.running ∧
        (activityStep th minDuration s0 (some x.1) x.2).stateStartTime ≤ x.2 := by
      simp only [activityStep, hclass]
      by_cases hc : ActivityState.running ≠ s0.lastState
      · simp [hc]
      · push_neg at hc
        by_cases hd : x.2 - s0.stateStartTime ≥ minDuration <;>
          simp [hc.symm, hd, hstart]
    have hfin := activityRunQ_sustained_running th minDuration xs
      (activityStep th minDuration s0 (some x.1) x.2) hne hstep.1 hmem2
      (by
        have : minDuration ≤ (xs.getLastD (0, 0)).2 - x.2 := hdur
        have h2 := hstep.2
        linarith)
    simpa [activityRunQ, List.foldl_cons] using hfin

/-- C6 witness: concrete traces for both halves of the debounce theorem, with
default thresholds and the default 3000 ms window.  The oscillating trace
flips between 3 m/s and 1 m/s every second and never changes the confirmed
state; the sustained trace holds 3 m/s for 4000 ms and ends running. -/
theorem C6_debounce_witness :
    (activityRunQ defaultSpeedThreshold 3000 (initialActivityRecState 0)
        [(3, 0), (1, 1000), (3, 2000)]).activityState
      = (initialActivityRecState 0).activityState ∧
    (activityRunQ defaultSpeedThreshold 3000 (initialActivityRecState 0)
        [(3, 0), (3, 4000)]).activityState = ActivityState.running := by
  constructor
  · exact C6_debounce.1 defaultSpeedThreshold 3000 (initialActivityRecState 0)
      [(3, 0), (1, 1000), (3, 2000)]
      (by
        intro k hk
        have hk3 : k < 3 := by simpa using hk
        have hrs : ¬(ActivityState.running = ActivityState.stationary) := by simp
        have hsr : ¬(ActivityState.stationary = ActivityState.running) := by simp
        interval_cases k <;>
          norm_num [activityRunQ, activityStep, classifyActivity,
            defaultSpeedThreshold, initialActivityRecState, hrs, hsr])
  · exact C6_debounce.2 defaultSpeedThreshold 3000 (initialActivityRecState 0)
      (3, 0) [(3, 4000)]
      (by simp)
      (by
        intro p hp
        simp only [List.mem_cons, List.not_mem_nil, or_false] at hp
        rcases hp with rfl | rfl <;> norm_num [defaultSpeedThreshold])
      (by norm_num [initialActivityRecState])
      (by
        show (3000 : ℚ) ≤ 4000 - 0
        norm_num)

/-! ## Kalman filter (src/utils/kalmanFilter.ts, timestamped variant) -/

/-- Truthiness of an optional numeric value in the source language: an absent
value and zero are falsy. -/
def truthy : Option ℚ → Bool
  | none => false
  | some x => x != 0

/-- Value of the source expression timestamp-or-now, where now stands for the
clock reading used when the timestamp is falsy. -/
def tsOrNow (timestamp : Option ℚ) (now : ℚ) : ℚ :=
  if truthy timestamp then timestamp.getD 0 else now

/-- State of the KalmanFilter class: process variance parameter, accuracy
floor, per-axis estimates (null before the first reading), per-axis variances
(negative one before the first reading) and the last update timestamp. -/
structure KalmanFilter where
  variance : ℚ
  minAccuracy : ℚ
  lat : Option ℚ
  lng : Option ℚ
  variance_lat : ℚ
  variance_lng : ℚ
  lastTimestamp : ℚ
deriving Repr, DecidableEq

/-- Freshly constructed filter with the given parameters; the constructor
defaults are variance 5 and minAccuracy 5. -/
def KalmanFilter.create (variance minAccuracy : ℚ) : KalmanFilter :=
  ⟨variance, minAccuracy, none, none, -1, -1, 0⟩

/-- Embedding of KalmanFilter.process (lines 31 to 74 of the filter source).
Accuracy is clamped to the floor; the first reading initialises estimates and
variances; later readings compute the elapsed time (clamped to the interval
from 0.1 s to 5 s) when both the passed timestamp and the stored one are
truthy and 1 otherwise, inflate each axis variance by elapsed times process
variance, apply the per-axis gain and shrink the variance.  The non-null
assertions of the source are modelled by getD, reached only with the
estimates present. -/
def KalmanFilter.process (f : KalmanFilter) (lat lng accuracy : ℚ)
    (timestamp : Option ℚ) (now : ℚ) : KalmanFilter × ℚ × ℚ :=
  let accuracy := max accuracy f.minAccuracy
  if f.variance_lat < 0 then
    (⟨f.variance, f.minAccuracy, some lat, some lng, accuracy * accuracy,
      accuracy * accuracy, tsOrNow timestamp now⟩, lat, lng)
  else
    let timeInc : ℚ :=
      if truthy timestamp ∧ f.lastTimestamp ≠ 0 then
        min (max ((timestamp.getD 0 - f.lastTimestamp) / 1000) (1/10)) 5
      else 1
    let vlat := f.variance_lat + timeInc * f.variance
    let vlng := f.variance_lng + timeInc * f.variance
    let k_lat := vlat / (vlat + accuracy * accuracy)
    let k_lng := vlng / (vlng + accuracy * accuracy)
    let newLat := f.lat.getD 0 + k_lat * (lat - f.lat.getD 0)
    let newLng := f.lng.getD 0 + k_lng * (lng - f.lng.getD 0)
    (⟨f.variance, f.minAccuracy, some newLat, some newLng,
      (1 - k_lat) * vlat, (1 - k_lng) * vlng, tsOrNow timestamp now⟩, newLat, newLng)

/-- Embedding of KalmanFilter.getVariance: the maximum of the two axis
variances. -/
def KalmanFilter.getVariance (f : KalmanFilter) : ℚ :=
  max f.variance_lat f.variance_lng

/-- Embedding of KalmanFilter.reset. -/
def KalmanFilter.reset (f : KalmanFilter) : KalmanFilter :=
  ⟨f.variance, f.minAccuracy, none, none, -1, -1, 0⟩

/-- Helper: closed form of one process call after the first, with a truthy
timestamp and a truthy stored timestamp. -/
theorem process_var_formula (f : KalmanFilter) (lat lng a ts now : ℚ)
    (hvar : 0 ≤ f.variance_lat) (hts : ts ≠ 0) (hlast : f.lastTimestamp ≠ 0) :
    (f.process lat lng a (some ts) now).1.variance = f.variance ∧
    (f.process lat lng a (some ts) now).1.minAccuracy = f.minAccuracy ∧
    (f.process lat lng a (some ts) now).1.variance_lat
      = (1 - (f.variance_lat + min (max ((ts - f.lastTimestamp) / 1000) (1/10)) 5 * f.variance)
            / (f.variance_lat + min (max ((ts - f.lastTimestamp) / 1000) (1/10)) 5 * f.variance
                + max a f.minAccuracy * max a f.minAccuracy))
        * (f.variance_lat + min (max ((ts - f.lastTimestamp) / 1000) (1/10)) 5 * f.variance) ∧
    (f.process lat lng a (some ts) now).1.variance_lng
      = (1 - (f.variance_lng + min (max ((ts - f.lastTimestamp) / 1000) (1/10)) 5 * f.variance)
            / (f.variance_lng + min (max ((ts - f.lastTimestamp) / 1000) (1/10)) 5 * f.variance
                + max a f.minAccuracy * max a f.minAccuracy))
        * (f.variance_lng + min (max ((ts - f.lastTimestamp) / 1000) (1/10)) 5 * f.variance) ∧
    (f.process lat lng a (some ts) now).1.lastTimestamp = ts := by
  have hnlt : ¬ f.variance_lat < 0 := not_lt.mpr hvar
  have htr : truthy (some ts) = true := by
    simp [truthy, hts]
  simp only [KalmanFilter.process, hnlt, if_false, htr, hlast, Option.getD_some,
    tsOrNow, if_true, ne_eq, not_false_iff, and_self, if_pos]

/-- C7: on a process call after the first (the axis variance is initialised)
that passes a truthy timestamp into a filter with a truthy stored timestamp,
and whose reported accuracy is at least the floor, the elapsed time is the
clamp of (timestamp - lastTimestamp) / 1000 into the interval from 1/10 to 5,
each axis variance is inflated by exactly that clamped elapsed time multiplied
by the process variance, and the new axis variance is the inflated variance
shrunk by one minus the gain inflated / (inflated + accuracy squared). -/
theorem C7_process_time_clamp (f : KalmanFilter) (lat lng a ts now : ℚ)
    (hvar : 0 ≤ f.variance_lat) (hts : ts ≠ 0) (hlast : f.lastTimestamp ≠ 0)
    (hacc : f.minAccuracy ≤ a) :
    (1/10 ≤ min (max ((ts - f.lastTimestamp) / 1000) (1/10)) 5 ∧
      min (max ((ts - f.lastTimestamp) / 1000) (1/10)) 5 ≤ 5) ∧
    (f.process lat lng a (some ts) now).1.variance_lat
      = (1 - (f.variance_lat + min (max ((ts - f.lastTimestamp) / 1000) (1/10)) 5 * f.variance)
            / (f.variance_lat + min (max ((ts - f.lastTimestamp) / 1000) (1/10)) 5 * f.variance
                + a * a))
        * (f.variance_lat + min (max ((ts - f.lastTimestamp) / 1000) (1/10)) 5 * f.variance) ∧
    (f.process lat lng a (some ts) now).1.variance_lng
      = (1 - (f.variance_lng + min (max ((ts - f.lastTimestamp) / 1000) (1/10)) 5 * f.variance)
            / (f.variance_lng + min (max ((ts - f.lastTimestamp) / 1000) (1/10)) 5 * f.variance
                + a * a))
        * (f.variance_lng + min (max ((ts - f.lastTimestamp) / 1000) (1/10)) 5 * f.variance) := by
  obtain ⟨-, -, h3, h4, -⟩ := process_var_formula f lat lng a ts now hvar hts hlast
  have hmax : max a f.minAccuracy = a := max_eq_left hacc
  refine ⟨⟨?_, min_le_right _ _⟩, ?_, ?_⟩
  · exact le_min (le_max_right _ _) (by norm_num)
  · rw [h3, hmax]
  · rw [h4, hmax]

/-- Demonstration filter state after a first reading, used by the C7 witness:
default parameters, estimates at the origin, axis variances 25, last update
at time 1000. -/
def fDemo : KalmanFilter := ⟨5, 5, some 0, some 0, 25, 25, 1000⟩

/-- C7 witness: the clamp and variance formulas evaluated on the concrete
filter state fDemo with a reading of accuracy 5 at timestamp 2000. -/
theorem C7_process_time_clamp_witness :
    (1/10 ≤ min (max (((2000 : ℚ) - fDemo.lastTimestamp) / 1000) (1/10)) 5 ∧
      min (max (((2000 : ℚ) - fDemo.lastTimestamp) / 1000) (1/10)) 5 ≤ 5) ∧
    (fDemo.process 0 0 5 (some 2000) 2000).1.variance_lat
      = (1 - (fDemo.variance_lat
              + min (max (((2000 : ℚ) - fDemo.lastTimestamp) / 1000) (1/10)) 5 * fDemo.variance)
            / (fDemo.variance_lat
                + min (max (((2000 : ℚ) - fDemo.lastTimestamp) / 1000) (1/10)) 5 * fDemo.variance
                + 5 * 5))
        * (fDemo.variance_lat
            + min (max (((2000 : ℚ) - fDemo.lastTimestamp) / 1000) (1/10)) 5 * fDemo.variance) ∧
    (fDemo.process 0 0 5 (some 2000) 2000).1.variance_lng
      = (1 - (fDemo.variance_lng
              + min (max (((2000 : ℚ) - fDemo.lastTimestamp) / 1000) (1/10)) 5 * fDemo.variance)
            / (fDemo.variance_lng
                + min (max (((2000 : ℚ) - fDemo.lastTimestamp) / 1000) (1/10)) 5 * fDemo.variance
                + 5 * 5))
        * (fDemo.variance_lng
            + min (max (((2000 : ℚ) - fDemo.lastTimestamp) / 1000) (1/10)) 5 * fDemo.variance) :=
  C7_process_time_clamp fDemo 0 0 5 2000 2000 (by norm_num [fDemo])
    (by norm_num) (by norm_num [fDemo]) (by norm_num [fDemo])

/-- Helper: one Kalman variance update step.  With nonnegative squared
accuracy B, nonnegative variance V and nonnegative inflation dq satisfying the
quadratic invariant B dq ≤ V (V + dq), the shrunk variance
(1 - (V+dq)/((V+dq)+B)) (V+dq) is nonnegative, at most V, and satisfies the
quadratic invariant again. -/
theorem kalman_quad_step (B V dq : ℚ) (hB : 0 ≤ B) (hV : 0 ≤ V) (hdq : 0 ≤ dq)
    (hquad : B * dq ≤ V * (V + dq)) :
    0 ≤ (1 - (V + dq) / (V + dq + B)) * (V + dq) ∧
    (1 - (V + dq) / (V + dq + B)) * (V + dq) ≤ V ∧
    B * dq ≤ ((1 - (V + dq) / (V + dq + B)) * (V + dq))
        * ((1 - (V + dq) / (V + dq + B)) * (V + dq) + dq) := by
  rcases eq_or_lt_of_le (by positivity : (0 : ℚ) ≤ V + dq + B) with h0 | hpos
  · have hV0 : V = 0 := by linarith
    have hdq0 : dq = 0 := by linarith
    have hB0 : B = 0 := by linarith
    subst hV0
    subst hdq0
    subst hB0
    norm_num
  · have hne : V + dq + B ≠ 0 := ne_of_gt hpos
    have key1 : (1 - (V + dq) / (V + dq + B)) * (V + dq)
        = B * (V + dq) / (V + dq + B) := by
      field_simp
    have key : dq * (V + dq + B) ≤ (V + dq) * (V + dq) := by nlinarith [hquad]
    refine ⟨?_, ?_, ?_⟩
    · rw [key1]
      exact div_nonneg (mul_nonneg hB (by linarith)) (le_of_lt hpos)
    · rw [key1, div_le_iff hpos]
      nlinarith [hquad]
    · rw [key1]
      have expand : B * (V + dq) / (V + dq + B) * (B * (V + dq) / (V + dq + B) + dq)
          = (B * (V + dq) * (B * (V + dq) + dq * (V + dq + B)))
              / ((V + dq + B) * (V + dq + B)) := by
        field_simp
      rw [expand, le_div_iff (mul_pos hpos hpos)]
      nlinarith [mul_nonneg (mul_nonneg hB hB) (sub_nonneg.mpr key)]

/-- Repeated feeding of the filter with a fixed location, a constant accuracy
and timestamps spaced by a constant dtms, starting from a fresh filter: state
after the reading number n + 1. -/
def kalmanConstRun (q minAcc lat lng a t0 dtms : ℚ) : ℕ → KalmanFilter
  | 0 => ((KalmanFilter.create q minAcc).process lat lng a (some t0) t0).1
  | n + 1 =>
      ((kalmanConstRun q minAcc lat lng a t0 dtms n).process lat lng a
        (some (t0 + ((n : ℚ) + 1) * dtms)) (t0 + ((n : ℚ) + 1) * dtms)).1

/-- Helper: state after the first reading of a constant run. -/
theorem kalmanConstRun_zero (q minAcc lat lng a t0 dtms : ℚ) (ht0 : 0 < t0) :
    kalmanConstRun q minAcc lat lng a t0 dtms 0
      = ⟨q, minAcc, some lat, some lng, max a minAcc * max a minAcc,
          max a minAcc * max a minAcc, t0⟩ := by
  have hneg : (KalmanFilter.create q minAcc).variance_lat < 0 := by
    norm_num [KalmanFilter.create]
  have ht0ne : t0 ≠ 0 := ne_of_gt ht0
  simp only [kalmanConstRun, KalmanFilter.process, if_pos hneg]
  simp [KalmanFilter.create, tsOrNow, truthy, ht0ne]

/-- Helper: invariants of the constant run maintained through every reading:
the parameters are unchanged, both axis variances agree, the stored timestamp
tracks the reading times, the axis variance is nonnegative, and the quadratic
invariant holds with the clamped inflation. -/
theorem kalmanConstRun_invariant (q minAcc lat lng a t0 dtms : ℚ)
    (hq : 0 ≤ q) (ht0 : 0 < t0) (hdt : 0 < dtms) : ∀ n : ℕ,
    (kalmanConstRun q minAcc lat lng a t0 dtms n).variance = q ∧
    (kalmanConstRun q minAcc lat lng a t0 dtms n).minAccuracy = minAcc ∧
    (kalmanConstRun q minAcc lat lng a t0 dtms n).variance_lng
        = (kalmanConstRun q minAcc lat lng a t0 dtms n).variance_lat ∧
    (kalmanConstRun q minAcc lat lng a t0 dtms n).lastTimestamp = t0 + n * dtms ∧
    0 ≤ (kalmanConstRun q minAcc lat lng a t0 dtms n).variance_lat ∧
    max a minAcc * max a minAcc * (min (max (dtms / 1000) (1/10)) 5 * q)
        ≤ (kalmanConstRun q minAcc lat lng a t0 dtms n).variance_lat
          * ((kalmanConstRun q minAcc lat lng a t0 dtms n).variance_lat
              + min (max (dtms / 1000) (1/10)) 5 * q) := by
  have hdtlb : (1 : ℚ)/10 ≤ min (max (dtms / 1000) (1/10)) 5 :=
    le_min (le_max_right _ _) (by norm_num)
  have hdqnn : 0 ≤ min (max (dtms / 1000) (1/10)) 5 * q :=
    mul_nonneg (le_trans (by norm_num) hdtlb) hq
  intro n
  induction n with
  | zero =>
      rw [kalmanConstRun_zero q minAcc lat lng a t0 dtms ht0]
      refine ⟨rfl, rfl, rfl, by push_cast; ring, mul_self_nonneg _, ?_⟩
      nlinarith [mul_self_nonneg (max a minAcc * max a minAcc), hdqnn]
  | succ n ih =>
      obtain ⟨hvq, hmin, hlnglat, hlast, hvnn, hquad⟩ := ih
      have hn0 : (0 : ℚ) ≤ (n : ℚ) := Nat.cast_nonneg n
      have htspos : 0 < t0 + ((n : ℚ) + 1) * dtms := by
        have : 0 < ((n : ℚ) + 1) * dtms := mul_pos (by linarith) hdt
        linarith
      have hlastpos : 0 < (kalmanConstRun q minAcc lat lng a t0 dtms n).lastTimestamp := by
        rw [hlast]
        have : 0 ≤ (n : ℚ) * dtms := mul_nonneg hn0 (le_of_lt hdt)
        linarith
      obtain ⟨p1, p2, p3, p4, p5⟩ := process_var_formula
        (kalmanConstRun q minAcc lat lng a t0 dtms n) lat lng a
        (t0 + ((n : ℚ) + 1) * dtms) (t0 + ((n : ℚ) + 1) * dtms)
        hvnn (ne_of_gt htspos) (ne_of_gt hlastpos)
      have hdiff : (t0 + ((n : ℚ) + 1) * dtms
          - (kalmanConstRun q minAcc lat lng a t0 dtms n).lastTimestamp) / 1000
          = dtms / 1000 := by
        rw [hlast]
        ring
      rw [hdiff, hvq, hmin] at p3 p4
      have hstep : kalmanConstRun q minAcc lat lng a t0 dtms (n + 1)
          = ((kalmanConstRun q minAcc lat lng a t0 dtms n).process lat lng a
              (some (t0 + ((n : ℚ) + 1) * dtms)) (t0 + ((n : ℚ) + 1) * dtms)).1 := rfl
      have hq1 := kalman_quad_step (max a minAcc * max a minAcc)
        (kalmanConstRun q minAcc lat lng a t0 dtms n).variance_lat
        (min (max (dtms / 1000) (1/10)) 5 * q)
        (mul_self_nonneg _) hvnn hdqnn hquad
      refine ⟨?_, ?_, ?_, ?_, ?_, ?_⟩
      · rw [hstep, p1, hvq]
      · rw [hstep, p2, hmin]
      · rw [hstep, p3, p4, hlnglat]
      · rw [hstep, p5]
        push_cast
        ring
      · rw [hstep, p3]
        exact hq1.1
      · rw [hstep, p3]
        exact hq1.2.2

/-- Helper: closed form of the axis variance after one more constant
reading. -/
theorem kalmanConstRun_succ_varlat (q minAcc lat lng a t0 dtms : ℚ)
    (hq : 0 ≤ q) (ht0 : 0 < t0) (hdt : 0 < dtms) (n : ℕ) :
    (kalmanConstRun q minAcc lat lng a t0 dtms (n + 1)).variance_lat
      = (1 - ((kalmanConstRun q minAcc lat lng a t0 dtms n).variance_lat
              + min (max (dtms / 1000) (1/10)) 5 * q)
            / ((kalmanConstRun q minAcc lat lng a t0 dtms n).variance_lat
                + min (max (dtms / 1000) (1/10)) 5 * q
                + max a minAcc * max a minAcc))
        * ((kalmanConstRun q minAcc lat lng a t0 dtms n).variance_lat
            + min (max (dtms / 1000) (1/10)) 5 * q) := by
  obtain ⟨hvq, hmin, hlnglat, hlast, hvnn, hquad⟩ :=
    kalmanConstRun_invariant q minAcc lat lng a t0 dtms hq ht0 hdt n
  have hn0 : (0 : ℚ) ≤ (n : ℚ) := Nat.cast_nonneg n
  have htspos : 0 < t0 + ((n : ℚ) + 1) * dtms := by
    have : 0 < ((n : ℚ) + 1) * dtms := mul_pos (by linarith) hdt
    linarith
  have hlastpos : 0 < (kalmanConstRun q minAcc lat lng a t0 dtms n).lastTimestamp := by
    rw [hlast]
    have : 0 ≤ (n : ℚ) * dtms := mul_nonneg hn0 (le_of_lt hdt)
    linarith
  obtain ⟨p1, p2, p3, p4, p5⟩ := process_var_formula
    (kalmanConstRun q minAcc lat lng a t0 dtms n) lat lng a
    (t0 + ((n : ℚ) + 1) * dtms) (t0 + ((n : ℚ) + 1) * dtms)
    hvnn (ne_of_gt htspos) (ne_of_gt hlastpos)
  have hdiff : (t0 + ((n : ℚ) + 1) * dtms
      - (kalmanConstRun q minAcc lat lng a t0 dtms n).lastTimestamp) / 1000
      = dtms / 1000 := by
    rw [hlast]
    ring
  rw [hdiff, hvq, hmin] at p3
  exact p3

/-- Helper: with the default construction parameters 5 and 5, constant
accuracy 5 readings at one second spacing starting at time 1000, the exposed
variance never drops below 8: the code converges to the positive steady state
of the filter, not to zero. -/
theorem kalmanDefaultRun_lb (n : ℕ) :
    8 ≤ (kalmanConstRun 5 5 0 0 5 1000 1000 n).getVariance := by
  have hinv := kalmanConstRun_invariant 5 5 0 0 5 1000 1000
    (by norm_num) (by norm_num) (by norm_num)
  have hdt1 : min (max ((1000 : ℚ) / 1000) (1/10)) 5 = 1 := by
    rw [show (1000 : ℚ) / 1000 = 1 by norm_num, max_eq_left (by norm_num),
      min_eq_left (by norm_num)]
  have hmax5 : max (5 : ℚ) 5 = 5 := max_self 5
  have hvar : ∀ m : ℕ, (kalmanConstRun 5 5 0 0 5 1000 1000 m).getVariance
      = (kalmanConstRun 5 5 0 0 5 1000 1000 m).variance_lat := by
    intro m
    rw [KalmanFilter.getVariance, (hinv m).2.2.1, max_self]
  induction n with
  | zero =>
      rw [hvar 0, kalmanConstRun_zero 5 5 0 0 5 1000 1000 (by norm_num)]
      norm_num
  | succ n ih =>
      rw [hvar (n + 1),
        kalmanConstRun_succ_varlat 5 5 0 0 5 1000 1000
          (by norm_num) (by norm_num) (by norm_num) n,
        hdt1, hmax5]
      rw [hvar n] at ih
      have hb : (kalmanConstRun 5 5 0 0 5 1000 1000 n).variance_lat + 1 * 5 + 5 * 5 > 0 := by
        linarith
      have heq : (1 - ((kalmanConstRun 5 5 0 0 5 1000 1000 n).variance_lat + 1 * 5)
            / ((kalmanConstRun 5 5 0 0 5 1000 1000 n).variance_lat + 1 * 5 + 5 * 5))
          * ((kalmanConstRun 5 5 0 0 5 1000 1000 n).variance_lat + 1 * 5)
          = 25 * ((kalmanConstRun 5 5 0 0 5 1000 1000 n).variance_lat + 5)
              / ((kalmanConstRun 5 5 0 0 5 1000 1000 n).variance_lat + 30) := by
        have hne : (kalmanConstRun 5 5 0 0 5 1000 1000 n).variance_lat + 1 * 5 + 5 * 5 ≠ 0 :=
          ne_of_gt hb
        field_simp
        ring
      rw [heq, le_div_iff (by linarith)]
      linarith

/-- C4: the claim is corrected.  For every process variance, accuracy floor,
fixed location, constant accuracy and constant positive reading spacing, the
exposed variance of the filter is non-increasing after the first sample; but
it does not converge toward zero: with the default parameters (process
variance 5, floor 5), constant accuracy 5 and one second spacing it stays at
or above 8 forever, converging to the positive steady state of the filter. -/
theorem C4_variance_monotone_with_positive_floor :
    (∀ q minAcc lat lng a t0 dtms : ℚ, 0 ≤ q → 0 < t0 → 0 < dtms → ∀ n : ℕ,
      (kalmanConstRun q minAcc lat lng a t0 dtms (n + 1)).getVariance
        ≤ (kalmanConstRun q minAcc lat lng a t0 dtms n).getVariance) ∧
    (∀ n : ℕ, 8 ≤ (kalmanConstRun 5 5 0 0 5 1000 1000 n).getVariance) := by
  refine ⟨?_, kalmanDefaultRun_lb⟩
  intro q minAcc lat lng a t0 dtms hq ht0 hdt n
  have hdtlb : (1 : ℚ)/10 ≤ min (max (dtms / 1000) (1/10)) 5 :=
    le_min (le_max_right _ _) (by norm_num)
  have hdqnn : 0 ≤ min (max (dtms / 1000) (1/10)) 5 * q :=
    mul_nonneg (le_trans (by norm_num) hdtlb) hq
  obtain ⟨hvq, hmin, hlnglat, hlast, hvnn, hquad⟩ :=
    kalmanConstRun_invariant q minAcc lat lng a t0 dtms hq ht0 hdt n
  obtain ⟨hvq1, hmin1, hlnglat1, hlast1, hvnn1, hquad1⟩ :=
    kalmanConstRun_invariant q minAcc lat lng a t0 dtms hq ht0 hdt (n + 1)
  have hgv : ∀ m : ℕ, (kalmanConstRun q minAcc lat lng a t0 dtms m).variance_lng
        = (kalmanConstRun q minAcc lat lng a t0 dtms m).variance_lat →
      (kalmanConstRun q minAcc lat lng a t0 dtms m).getVariance
        = (kalmanConstRun q minAcc lat lng a t0 dtms m).variance_lat := by
    intro m hm
    rw [KalmanFilter.getVariance, hm, max_self]
  rw [hgv n hlnglat, hgv (n + 1) hlnglat1,
    kalmanConstRun_succ_varlat q minAcc lat lng a t0 dtms hq ht0 hdt n]
  exact (kalman_quad_step (max a minAcc * max a minAcc)
    (kalmanConstRun q minAcc lat lng a t0 dtms n).variance_lat
    (min (max (dtms / 1000) (1/10)) 5 * q)
    (mul_self_nonneg _) hvnn hdqnn hquad).2.1

/-- C4 witness: the two halves of the corrected statement instantiated at the
default parameters and the first step of the run. -/
theorem C4_variance_monotone_witness :
    (kalmanConstRun 5 5 0 0 5 1000 1000 1).getVariance
      ≤ (kalmanConstRun 5 5 0 0 5 1000 1000 0).getVariance ∧
    8 ≤ (kalmanConstRun 5 5 0 0 5 1000 1000 0).getVariance :=
  ⟨C4_variance_monotone_with_positive_floor.1 5 5 0 0 5 1000 1000
      (by norm_num) (by norm_num) (by norm_num) 0,
    C4_variance_monotone_with_positive_floor.2 0⟩

/-- C4 counterexample: the variance does not converge toward zero.  On the
concrete constant run with default parameters there is no reading index at
which the exposed variance drops below 8. -/
theorem C4_counterexample_no_convergence_to_zero :
    ¬ ∃ n : ℕ, (kalmanConstRun 5 5 0 0 5 1000 1000 n).getVariance < 8 := by
  rintro ⟨n, hn⟩
  exact absurd (kalmanDefaultRun_lb n) (not_le.mpr hn)

/-! ## Geolocation validation cascade (src/hooks/useGeolocation.ts) -/

/-- Fields of the last accepted position used by the validation cascade. -/
structure LastPosition where
  latitude : ℚ
  longitude : ℚ
  timestamp : ℚ
deriving Repr, DecidableEq

/-- Verdict of one handleSuccess invocation on a raw reading. -/
inductive GpsVerdict where
  | outOfBounds
  | unrealisticSpeed
  | positionJump
  | poorAccuracy
  | accepted
deriving Repr, DecidableEq

/-- Effective speed of the source expression speed-or-zero: a null reported
speed becomes 0; a numeric reported speed keeps its value (a reported zero is
falsy but the substituted 0 is the same value). -/
def speedOrZero : Option ℚ → ℚ
  | none => 0
  | some s => s

/-- Embedding of the validation cascade of handleSuccess (lines 74 to 131):
coordinate bounds, reported speed above 12 m/s, jump detection against the
last accepted position (entered when a last position exists and the new
timestamp is positive, checked when more than 0.1 s elapsed, rejecting when
the implied speed exceeds 15 m/s), and the 50 m accuracy ceiling, in this
order, short-circuiting at the first failure.  The great-circle distance
calculateDistance (a Haversine formula over real trigonometry) is passed as
the parameter dist, applied to the last latitude, last longitude, new
latitude and new longitude. -/
def handleSuccessVerdict (dist : ℚ → ℚ → ℚ → ℚ → ℚ)
    (last : Option LastPosition) (rawLat rawLng accuracy : ℚ)
    (speed : Option ℚ) (timestamp : ℚ) : GpsVerdict :=
  if rawLat < -90 ∨ rawLat > 90 ∨ rawLng < -180 ∨ rawLng > 180 then
    GpsVerdict.outOfBounds
  else if speedOrZero speed > 12 then
    GpsVerdict.unrealisticSpeed
  else
    let jump : Bool :=
      match last with
      | none => false
      | some lp =>
          if timestamp > 0 then
            let timeDelta := (timestamp - lp.timestamp) / 1000
            if timeDelta > 1/10 then
              decide (dist lp.latitude lp.longitude rawLat rawLng / timeDelta > 15)
            else false
          else false
    if jump then GpsVerdict.positionJump
    else if accuracy > 50 then GpsVerdict.poorAccuracy
    else GpsVerdict.accepted

/-- C5: a raw reading with in-bounds coordinates and effective reported speed
at most 12 m/s, arriving (at a positive clock timestamp) when a previously
accepted position exists and more than 0.1 s has elapsed since it, whose
great-circle distance to the last position divided by the elapsed time
exceeds 15 m/s, is rejected as a position jump for every reported accuracy
and every distance function realising the great-circle distance. -/
theorem C5_jump_rejected_regardless_of_accuracy
    (dist : ℚ → ℚ → ℚ → ℚ → ℚ) (lp : LastPosition)
    (lat lng acc : ℚ) (speed : Option ℚ) (ts : ℚ)
    (hlat1 : -90 ≤ lat) (hlat2 : lat ≤ 90)
    (hlng1 : -180 ≤ lng) (hlng2 : lng ≤ 180)
    (hsp : speedOrZero speed ≤ 12)
    (hts : 0 < ts)
    (hdelta : 1/10 < (ts - lp.timestamp) / 1000)
    (hfast : 15 < dist lp.latitude lp.longitude lat lng / ((ts - lp.timestamp) / 1000)) :
    handleSuccessVerdict dist (some lp) lat lng acc speed ts = GpsVerdict.positionJump := by
  have hb : ¬(lat < -90 ∨ lat > 90 ∨ lng < -180 ∨ lng > 180) := by
    push_neg
    exact ⟨hlat1, hlat2, hlng1, hlng2⟩
  have hs : ¬(speedOrZero speed > 12) := not_lt.mpr hsp
  simp only [handleSuccessVerdict, if_neg hb, if_neg hs, if_pos hts, if_pos hdelta]
  simp [hfast]

/-- C5 witness: a concrete reading 1000 ms after a last accepted position,
10 km away under the supplied distance function, reported speed 0, reported
accuracy 9999 m, rejected as a position jump. -/
theorem C5_jump_rejected_witness :
    handleSuccessVerdict (fun _ _ _ _ => 10000) (some ⟨0, 0, 0⟩) 1 1 9999
      (some 0) 1000 = GpsVerdict.positionJump :=
  C5_jump_rejected_regardless_of_accuracy (fun _ _ _ _ => 10000) ⟨0, 0, 0⟩ 1 1 9999
    (some 0) 1000 (by norm_num) (by norm_num) (by norm_num) (by norm_num)
    (by norm_num [speedOrZero]) (by norm_num) (by norm_num) (by norm_num)

/-- C10: a raw reading with a null reported speed is treated exactly as a
reading with reported speed 0 m/s, and its verdict is never the unrealistic
speed rejection: it is out of bounds, a position jump, poor accuracy, or
accepted. -/
theorem C10_null_speed_never_speed_rejected
    (dist : ℚ → ℚ → ℚ → ℚ → ℚ) (last : Option LastPosition)
    (lat lng acc ts : ℚ) :
    handleSuccessVerdict dist last lat lng acc none ts
        = handleSuccessVerdict dist last lat lng acc (some 0) ts ∧
    (handleSuccessVerdict dist last lat lng acc none ts = GpsVerdict.outOfBounds ∨
     handleSuccessVerdict dist last lat lng acc none ts = GpsVerdict.positionJump ∨
     handleSuccessVerdict dist last lat lng acc none ts = GpsVerdict.poorAccuracy ∨
     handleSuccessVerdict dist last lat lng acc none ts = GpsVerdict.accepted) := by
  constructor
  · rfl
  · have hs : ¬ (speedOrZero (none : Option ℚ) > 12) := by norm_num [speedOrZero]
    unfold handleSuccessVerdict
    rw [if_neg hs]
    cases last with
    | none =>
        dsimp only
        split_ifs <;> tauto
    | some lp =>
        dsimp only
        split_ifs <;> tauto

/-! ## Usage and cost governor (src/utils/mapMatchingService.ts, apiConfig) -/

/-- Per-category usage counter: call count, last use clock time, accumulated
cost. -/
structure ApiCounter where
  count : ℚ
  lastUsed : Option ℚ
  totalCost : ℚ
deriving Repr, DecidableEq

/-- Persisted usage statistics: one counter per metered category plus the
calendar month key (YYYY-MM). -/
structure ApiUsageStats where
  mapMatching : ApiCounter
  snapToRoads : ApiCounter
  elevation : ApiCounter
  month : String
deriving Repr, DecidableEq

/-- Embedding of createEmptyStats: all-zero counters keyed to the current
month. -/
def createEmptyStats (currentMonth : String) : ApiUsageStats :=
  ⟨⟨0, none, 0⟩, ⟨0, none, 0⟩, ⟨0, none, 0⟩, currentMonth⟩

/-- Embedding of getApiUsageStats (lines 475 to 494): missing storage yields
empty stats; a stored record whose month differs from the current month is
replaced by empty stats; otherwise the stored record is returned.  The
storage round trip through serialisation is abstracted as exact. -/
def getApiUsageStats (currentMonth : String) :
    Option ApiUsageStats → ApiUsageStats
  | none => createEmptyStats currentMonth
  | some stats =>
      if stats.month ≠ currentMonth then createEmptyStats currentMonth else stats

/-- Metered external API categories. -/
inductive ApiCategory where
  | mapMatching
  | snapToRoads
  | elevation
deriving Repr, DecidableEq

/-- Counter of one category. -/
def ApiUsageStats.get (stats : ApiUsageStats) : ApiCategory → ApiCounter
  | ApiCategory.mapMatching => stats.mapMatching
  | ApiCategory.snapToRoads => stats.snapToRoads
  | ApiCategory.elevation => stats.elevation

/-- Replacement of the counter of one category. -/
def ApiUsageStats.setCat (stats : ApiUsageStats) (api : ApiCategory)
    (c : ApiCounter) : ApiUsageStats :=
  match api with
  | ApiCategory.mapMatching => ⟨c, stats.snapToRoads, stats.elevation, stats.month⟩
  | ApiCategory.snapToRoads => ⟨stats.mapMatching, c, stats.elevation, stats.month⟩
  | ApiCategory.elevation => ⟨stats.mapMatching, stats.snapToRoads, c, stats.month⟩

/-- Per-request cost of each category from API_CONFIG: 0.005 dollars for all
three. -/
def perRequestCost : ApiCategory → ℚ := fun _ => 5 / 1000

/-- Embedding of trackApiUsage (lines 522 to 546): read the stats through
getApiUsageStats (so a stale month resets first), increment the count of the
given category, stamp the clock time, add count times the per-request cost,
and persist.  The budget warning log has no effect on the stored value. -/
def trackApiUsage (api : ApiCategory) (count : ℚ) (currentMonth : String)
    (now : ℚ) (stored : Option ApiUsageStats) : ApiUsageStats :=
  let stats := getApiUsageStats currentMonth stored
  let c := stats.get api
  stats.setCat api ⟨c.count + count, some now, c.totalCost + count * perRequestCost api⟩

/-- C8: month rollover resets the governor.  When the stored month differs
from the current month, getApiUsageStats returns all-zero counters keyed to
the current month, and a subsequent trackApiUsage increments from zero: the
tracked category holds exactly the new count and cost stamped with the call
time, the record is keyed to the current month, and every other category is
all zero — counts and costs never accumulate across months. -/
theorem C8_month_rollover_resets :
    (∀ (stats : ApiUsageStats) (m : String), stats.month ≠ m →
      getApiUsageStats m (some stats) = createEmptyStats m) ∧
    (∀ (api : ApiCategory) (c : ℚ) (m : String) (now : ℚ) (stats : ApiUsageStats),
      stats.month ≠ m →
      (trackApiUsage api c m now (some stats)).get api
          = ⟨c, some now, c * perRequestCost api⟩ ∧
      (trackApiUsage api c m now (some stats)).month = m ∧
      ∀ api2 : ApiCategory, api2 ≠ api →
        (trackApiUsage api c m now (some stats)).get api2 = ⟨0, none, 0⟩) := by
  have hget : ∀ (stats : ApiUsageStats) (m : String), stats.month ≠ m →
      getApiUsageStats m (some stats) = createEmptyStats m := by
    intro stats m hne
    simp [getApiUsageStats, hne]
  refine ⟨hget, ?_⟩
  intro api c m now stats hne
  unfold trackApiUsage
  rw [hget stats m hne]
  cases api <;>
    refine ⟨by simp [ApiUsageStats.get, ApiUsageStats.setCat, createEmptyStats], by rfl, ?_⟩ <;>
    · intro api2 hne2
      cases api2 <;>
        simp_all [ApiUsageStats.get, ApiUsageStats.setCat, createEmptyStats]

/-- C8 witness: a stored January record accessed in February is reset, and a
February track of 3 map-matching calls at clock time 777 starts from zero. -/
theorem C8_month_rollover_witness :
    getApiUsageStats "2024-02" (some (createEmptyStats "2024-01"))
        = createEmptyStats "2024-02" ∧
    (trackApiUsage ApiCategory.mapMatching 3 "2024-02" 777
        (some (createEmptyStats "2024-01"))).get ApiCategory.mapMatching
        = ⟨3, some 777, 3 * perRequestCost ApiCategory.mapMatching⟩ ∧
    (trackApiUsage ApiCategory.mapMatching 3 "2024-02" 777
        (some (createEmptyStats "2024-01"))).month = "2024-02" ∧
    (trackApiUsage ApiCategory.mapMatching 3 "2024-02" 777
        (some (createEmptyStats "2024-01"))).get ApiCategory.elevation
        = ⟨0, none, 0⟩ := by
  have h1 := C8_month_rollover_resets.1 (createEmptyStats "2024-01") "2024-02"
    (by decide)
  have h2 := C8_month_rollover_resets.2 ApiCategory.mapMatching 3 "2024-02" 777
    (createEmptyStats "2024-01") (by decide)
  exact ⟨h1, h2.1, h2.2.1, h2.2.2 ApiCategory.elevation (by decide)⟩

/-! ## Persistent run store (src/utils/splitCalculator.ts bundle, db module) -/

/-- Run record handed to the store: an optional auto-increment identifier plus
the remaining fields, kept abstract since updateRun inspects only the
identifier. -/
structure RunData (α : Type) where
  id : Option ℕ
  payload : α
deriving Repr, DecidableEq

/-- Embedding of updateRun (lines 354 to 371): a record whose identifier is
missing (or zero, the only falsy number the auto-increment store never
issues) throws before the database is opened, so no store operation happens;
otherwise the record is upserted at its key.  The store is a key-record list;
the thrown error is the error branch, which carries no modified store. -/
def updateRun {α : Type} (db : List (ℕ × RunData α)) (run : RunData α) :
    Except String (List (ℕ × RunData α)) :=
  match run.id with
  | none => Except.error ("Run must have an ID to be updated")
  | some i =>
      if i = 0 then Except.error ("Run must have an ID to be updated")
      else Except.ok ((i, run) :: db.filter (fun p => p.1 != i))

/-- C9: updating a run record that lacks an identifier fails loudly with the
contract-violation error before any store operation, for every store content
and every record payload; the store is untouched because the error branch
returns no modified store, and the outcome is never a silent no-op. -/
theorem C9_updateRun_missing_id_throws (α : Type) (db : List (ℕ × RunData α))
    (payload : α) :
    updateRun db ⟨none, payload⟩
      = Except.error ("Run must have an ID to be updated") := rfl

end OndaSonora
